import Mathlib

/-!
Verification of the Move Notation Resolution & Game Session State Machine of the
en-passant chess bot (`src/game/game_session.py`, `src/client/client_session.py`).

The chess rules engine (the `python-chess` library) is an external collaborator:
boards are abstract (`BoardOps` below packages the board methods the sessions call),
while `chess.Move` values and the static parser `chess.Move.from_uci` are modelled
concretely, since `parse_move` branches on their behaviour.

Python exceptions are modelled with `Except` / `Option`; the mutable session object
is modelled by explicit state passing.
-/

namespace EnPassant

/-- Model of `chess.Move`: from/to squares (0..63), optional promotion piece index,
optional drop piece index (crazyhouse "P@e4" style UCI). -/
structure PyMove where
  from_square : Nat
  to_square : Nat
  promotion : Option Nat := none
  drop : Option Nat := none
  deriving DecidableEq, Repr

/-- `chess.Move.null()`, i.e. `Move(0, 0)`. -/
def null_move : PyMove := { from_square := 0, to_square := 0 }

/-- `chess.SQUARE_NAMES.index` on a two-character square name: file letter then
rank digit, square index `file + 8 * rank`; any other pair is a `ValueError`. -/
def parse_square (f r : Char) : Option Nat :=
  if 'a' ≤ f ∧ f ≤ 'h' ∧ '1' ≤ r ∧ r ≤ '8' then
    some ((f.toNat - 'a'.toNat) + 8 * (r.toNat - '1'.toNat))
  else none

/-- `chess.PIECE_SYMBOLS.index` for a piece symbol character
(`PIECE_SYMBOLS = [None, "p", "n", "b", "r", "q", "k"]`). -/
def piece_symbol_index (c : Char) : Option Nat :=
  if c = 'p' then some 1
  else if c = 'n' then some 2
  else if c = 'b' then some 3
  else if c = 'r' then some 4
  else if c = 'q' then some 5
  else if c = 'k' then some 6
  else none

/-- Model of `chess.Move.from_uci` (the collaborator library's strict UCI parser):
`"0000"` is the null move; a 4-character string with `"@"` second is a drop;
a 4- or 5-character string is square-square with optional lowercase promotion;
everything else raises `InvalidMoveError` (modelled as `none`).  A square-square
move with equal squares also raises. -/
def from_uci (uci : String) : Option PyMove :=
  if uci = "0000" then some null_move
  else
    match uci.data with
    | [a, b, c, d] =>
      if b = '@' then
        match piece_symbol_index a.toLower, parse_square c d with
        | some dr, some sq => some { from_square := sq, to_square := sq, drop := some dr }
        | _, _ => none
      else
        match parse_square a b, parse_square c d with
        | some fs, some ts => if fs = ts then none else some { from_square := fs, to_square := ts }
        | _, _ => none
    | [a, b, c, d, e] =>
      match parse_square a b, parse_square c d, piece_symbol_index e with
      | some fs, some ts, some pr =>
          if fs = ts then none else some { from_square := fs, to_square := ts, promotion := some pr }
      | _, _, _ => none
    | _ => none

/-- `str.replace('%20', ' ')`: left-to-right, non-overlapping. -/
def replace_pct20 : List Char → List Char
  | '%' :: '2' :: '0' :: rest => ' ' :: replace_pct20 rest
  | c :: rest => c :: replace_pct20 rest
  | [] => []

/-- `str.replace('х', 'x')` (Cyrillic kha to Latin x). -/
def replace_kha : List Char → List Char
  | c :: rest => (if c = 'х' then 'x' else c) :: replace_kha rest
  | [] => []

/-- The normalisation at the top of `GameSession.parse_move`:
`move_str.replace('%20', ' ').replace('х', 'x')`. -/
def preprocess (s : String) : String :=
  String.mk (replace_kha (replace_pct20 s.data))

/-- The three move exceptions of the rules engine that `parse_move` surfaces:
`chess.InvalidMoveError`, `chess.AmbiguousMoveError`, `chess.IllegalMoveError`. -/
inductive ChessErr where
  | invalid
  | ambiguous
  | illegal
  deriving DecidableEq, Repr

/-- The board methods of the rules-engine collaborator (`python-chess`) that the
session code calls, packaged over an abstract board type `B`.  `turn` follows
python-chess (`True` = white).  `board_from_fen f` models constructing a fresh
`chess.Board()` and calling `set_fen(f)`; `none` is its `ValueError`.
`find_variant` models `chess.variant.find_variant` returning the start board of
the variant together with its canonical `uci_variant` name. -/
structure BoardOps (B : Type) where
  is_legal : B → PyMove → Bool
  parse_san : B → String → Except ChessErr PyMove
  san : B → PyMove → String
  push : B → PyMove → B
  turn : B → Bool
  is_check : B → Bool
  is_checkmate : B → Bool
  legal_moves : B → List PyMove
  fen : B → String
  board_from_fen : String → Option B
  from_chess960 : Nat → B
  find_variant : String → Option (B × String)
  standard : B

/-- `GameSession.parse_move`: after normalising the string, first attempt a strict
UCI parse; a syntactically valid UCI move that is not legal on the board raises
`IllegalMoveError` (SAN is never attempted); only on `InvalidMoveError` from the
UCI parse is `board.parse_san` attempted, whose exceptions are re-raised as-is. -/
def parse_move {B : Type} (ops : BoardOps B) (b : B) (move_str : String) : Except ChessErr PyMove :=
  let t := preprocess move_str
  match from_uci t with
  | some m => if ops.is_legal b m then .ok m else .error .illegal
  | none => ops.parse_san b t

/-! ## Move tokenizer (`tokenize_move`)

The source compiles the anchored regex

`^(?:(?:(?P<piece>[KQRBN])?(?P<from_file>[a-h])?(?P<from_rank>[1-8])?(?P<capture>x)?`
`(?P<to_file>[a-h])(?P<to_rank>[1-8])(?P<promotion>([=\/]?[QRBNqrbn]))?`
`|(?P<castle>O-O(?:-O)?))(?P<check>[+#])?|(?P<result>1-0|0-1|1\/2-1\/2))$`

and calls `pattern.match(move)`.  The matcher below reproduces Python's
backtracking semantics: alternatives are tried left to right, optional groups
greedily (participating first), and the first complete match wins.  Each
combinator returns the list of candidate outcomes in priority order. -/

/-- A successful match of the `tokenize_move` regex: one constructor per
alternative of the top-level alternation; group captures are stored as the
matched substrings, `none` for a non-participating optional group. -/
inductive RawMatch where
  | pieceMove (piece from_file from_rank capture : Option String)
      (to_file to_rank : String) (promotion : Option String) (check : Option String)
  | castleMove (castle : String) (check : Option String)
  | resultMatch (result : String)
  deriving DecidableEq, Repr

/-- Candidates for an optional single-character group `(?P<g>[class])?`:
participating first (greedy), then skipped. -/
def opt_char (p : Char → Bool) : List Char → List (Option String × List Char)
  | [] => [(none, [])]
  | c :: rest => if p c then [(some (String.mk [c]), rest), (none, c :: rest)] else [(none, c :: rest)]

def is_piece_char (c : Char) : Bool := c = 'K' ∨ c = 'Q' ∨ c = 'R' ∨ c = 'B' ∨ c = 'N'

def is_file_char (c : Char) : Bool := 'a' ≤ c ∧ c ≤ 'h'

def is_rank_char (c : Char) : Bool := '1' ≤ c ∧ c ≤ '8'

def is_promo_char (c : Char) : Bool :=
  c = 'Q' ∨ c = 'R' ∨ c = 'B' ∨ c = 'N' ∨ c = 'q' ∨ c = 'r' ∨ c = 'b' ∨ c = 'n'

def is_check_char (c : Char) : Bool := c = '+' ∨ c = '#'

/-- Candidates for `(?P<promotion>([=\/]?[QRBNqrbn]))?`: the inner optional prefix
is greedy, so prefix-plus-letter comes first, then a bare letter, then skipping
the whole group. -/
def promo_cands : List Char → List (Option String × List Char)
  | [] => [(none, [])]
  | [a] => (if is_promo_char a then [(some (String.mk [a]), [])] else []) ++ [(none, [a])]
  | a :: b :: rest =>
      (if (a = '=' ∨ a = '/') ∧ is_promo_char b then [(some (String.mk [a, b]), rest)] else []) ++
      (if is_promo_char a then [(some (String.mk [a]), b :: rest)] else []) ++
      [(none, a :: b :: rest)]

/-- Candidates for `(?P<castle>O-O(?:-O)?)`: the inner `(?:-O)?` is greedy, so the
long castle is tried before the short one. -/
def castle_cands : List Char → List (String × List Char)
  | 'O' :: '-' :: 'O' :: '-' :: 'O' :: rest => [("O-O-O", rest), ("O-O", '-' :: 'O' :: rest)]
  | 'O' :: '-' :: 'O' :: rest => [("O-O", rest)]
  | _ => []

/-- Candidates for `(?P<result>1-0|0-1|1\/2-1\/2)`, alternation order preserved. -/
def result_cands : List Char → List (String × List Char)
  | '1' :: '-' :: '0' :: rest => [("1-0", rest)]
  | '0' :: '-' :: '1' :: rest => [("0-1", rest)]
  | '1' :: '/' :: '2' :: '-' :: '1' :: '/' :: '2' :: rest => [("1/2-1/2", rest)]
  | _ => []

/-- All complete matches of the first alternative (the piece/pawn/UCI move shape)
followed by the optional check suffix and the anchor, in backtracking priority
order. -/
def piece_move_matches (cs : List Char) : List RawMatch :=
  (opt_char is_piece_char cs).flatMap fun pc =>
  (opt_char is_file_char pc.2).flatMap fun ffc =>
  (opt_char is_rank_char ffc.2).flatMap fun frc =>
  (opt_char (fun c => c = 'x') frc.2).flatMap fun capc =>
  match capc.2 with
  | tf :: tr :: rest =>
    if is_file_char tf ∧ is_rank_char tr then
      (promo_cands rest).flatMap fun prc =>
      (opt_char is_check_char prc.2).flatMap fun chk =>
      if chk.2 = [] then
        [RawMatch.pieceMove pc.1 ffc.1 frc.1 capc.1 (String.mk [tf]) (String.mk [tr]) prc.1 chk.1]
      else []
    else []
  | _ => []

/-- All complete matches of the castling alternative (with check suffix and
anchor), in priority order. -/
def castle_matches (cs : List Char) : List RawMatch :=
  (castle_cands cs).flatMap fun cc =>
  (opt_char is_check_char cc.2).flatMap fun chk =>
  if chk.2 = [] then [RawMatch.castleMove cc.1 chk.1] else []

/-- All complete matches of the result-token alternative, in priority order. -/
def result_matches (cs : List Char) : List RawMatch :=
  (result_cands cs).flatMap fun rc =>
  if rc.2 = [] then [RawMatch.resultMatch rc.1] else []

/-- `pattern.match(move)`: the backtracking engine returns the first complete
match; the outer alternation tries the move shapes (piece move, then castling)
before the bare result token. -/
def regex_match (cs : List Char) : Option RawMatch :=
  (piece_move_matches cs ++ castle_matches cs ++ result_matches cs).head?

/-- The groupdict of the `tokenize_move` regex: every named group, `none` when it
did not participate in the match.  `tokenize_move` returns this dict (post-
processed), or the empty dict, modelled as `Option MoveToken`, for no match. -/
structure MoveToken where
  piece : Option String := none
  from_file : Option String := none
  from_rank : Option String := none
  capture : Option String := none
  to_file : Option String := none
  to_rank : Option String := none
  promotion : Option String := none
  castle : Option String := none
  check : Option String := none
  result : Option String := none
  deriving DecidableEq, Repr

/-- `match.groupdict()`: groups of the alternatives that did not participate
are `None`. -/
def to_groupdict : RawMatch → MoveToken
  | .pieceMove p ff fr cap tf tr pr chk =>
      { piece := p, from_file := ff, from_rank := fr, capture := cap,
        to_file := some tf, to_rank := some tr, promotion := pr, check := chk }
  | .castleMove c chk => { castle := some c, check := chk }
  | .resultMatch r => { result := some r }

/-- `ret['promotion'][-1].upper()`: last character of the matched promotion text,
uppercased. -/
def normalize_promo (s : String) : String :=
  String.mk [(s.data.getLastD ' ').toUpper]

/-- The post-processing in `tokenize_move`: normalise the promotion capture, then
default `piece` to `'P'` unless the string is UCI-shaped (both from-square
components present and no capture marker).  Matched groups are always non-empty
strings, so Python truthiness coincides with participation. -/
def postprocess (t : MoveToken) : MoveToken :=
  let t1 := match t.promotion with
    | some pr => { t with promotion := some (normalize_promo pr) }
    | none => t
  if t1.piece.isNone ∧ ¬(t1.from_rank.isSome ∧ t1.from_file.isSome ∧ t1.capture.isNone) then
    { t1 with piece := some "P" }
  else t1

/-- `tokenize_move`: regex match then post-processing; an unmatched string yields
the empty dict (`none`). -/
def tokenize_move (move : String) : Option MoveToken :=
  match regex_match move.data with
  | some m => some (postprocess (to_groupdict m))
  | none => none

/-! ## Correction suggestions (`levenshtein`, `correct_bad_move`) and
disambiguation (`disambiguate_move`)

The only uses these functions make of the board are `board.legal_moves` (in the
engine's enumeration order) and `board.san`. -/

/-- The inner loop of `levenshtein`: given `previous_row` starting at index `j`
(so its head is `previous_row[j]` and the next entry `previous_row[j + 1]`) and
the last value appended to `current_row`, produce the rest of `current_row`. -/
def lev_row_step (c1 : Char) : List Char → List Nat → Nat → List Nat
  | c2 :: cs, p0 :: p1 :: ps, cur_last =>
      let insertions := p1 + 1
      let deletions := cur_last + 1
      let substitutions := p0 + (if c1 ≠ c2 then 1 else 0)
      let v := min insertions (min deletions substitutions)
      v :: lev_row_step c1 cs (p1 :: ps) v
  | _, _, _ => []

/-- The row iteration of `levenshtein` (the `for i, c1 in enumerate(s1)` loop),
starting from `previous_row = range(len(s2) + 1)`. -/
def lev_rows (s1 s2 : List Char) : List Nat :=
  s1.enum.foldl (fun prev ic =>
    (ic.1 + 1) :: lev_row_step ic.2 s2 prev (ic.1 + 1)) (List.range (s2.length + 1))

/-- The body of `levenshtein` after the argument swap: `len(s1) >= len(s2)` is
assumed by the caller; an empty `s2` returns `len(s1)`, otherwise the dynamic
programming rows are computed and the answer is `previous_row[-1]`. -/
def levenshtein_go (s1 s2 : List Char) : Nat :=
  if s2 = [] then s1.length
  else (lev_rows s1 s2).getLastD 0

/-- `levenshtein(s1, s2)`: the source first swaps the arguments when
`len(s1) < len(s2)` (a single self-call), then runs the row computation. -/
def levenshtein (s1 s2 : String) : Nat :=
  if s1.length < s2.length then levenshtein_go s2.data s1.data
  else levenshtein_go s1.data s2.data

/-- Python string `<=`: lexicographic by Unicode code point. -/
def py_le_chars : List Char → List Char → Bool
  | [], _ => true
  | _ :: _, [] => false
  | a :: as, b :: bs =>
      if a.toNat < b.toNat then true
      else if b.toNat < a.toNat then false
      else py_le_chars as bs

/-- Python string comparison (`s1 <= s2`), as used by `sorted` on strings. -/
def py_le (a b : String) : Bool := py_le_chars a.data b.data

/-- One insertion step of a stable insertion sort under `py_le`; on strings this
produces the same list as Python's `sorted` (ties are literal equalities). -/
def py_insert (x : String) : List String → List String
  | [] => [x]
  | y :: ys => if py_le x y then x :: y :: ys else y :: py_insert x ys

/-- Model of Python `sorted` on a list of strings. -/
def py_sorted (l : List String) : List String := l.foldr py_insert []

/-- The SAN renderings of the board's legal moves, in the rules engine's
enumeration order (all `correct_bad_move` and `disambiguate_move` consult). -/
def legal_sans {B : Type} (ops : BoardOps B) (b : B) : List String :=
  (ops.legal_moves b).map (ops.san b)

/-- `correct_bad_move(move_str, board)`: collect the SAN renderings of the legal
moves whose `levenshtein` distance from the input is at most
`min(2, len(move_str) - 1)` (Python integer arithmetic: the threshold is `-1`
for the empty string, so the comparison is over `Int`), then return them
`sorted`. -/
def correct_bad_move {B : Type} (ops : BoardOps B) (move_str : String) (b : B) : List String :=
  let ms := (legal_sans ops b).foldl
    (fun acc s =>
      if (levenshtein move_str s : Int) ≤ min 2 ((move_str.length : Int) - 1)
      then acc ++ [s] else acc) []
  py_sorted ms

/-- The condition in `disambiguate_move`, given the two groupdicts: same `piece`,
same `to_rank`, same `to_file` (Python `==` on possibly-`None` values). -/
def token_fields_match (t1 t2 : MoveToken) : Bool :=
  t1.piece = t2.piece ∧ t1.to_rank = t2.to_rank ∧ t1.to_file = t2.to_file

/-- The loop of `disambiguate_move`.  Accessing `['piece']` on the empty dict
returned by `tokenize_move` for an unmatched string raises `KeyError`, which
nothing in the source catches: that is modelled as `Except.error ()`. -/
def disambiguate_go (tok_input : String) : List String → List String → Except Unit (List String)
  | [], acc => .ok acc
  | s :: rest, acc =>
      match tokenize_move s, tokenize_move tok_input with
      | some t1, some t2 =>
          if token_fields_match t1 t2 then disambiguate_go tok_input rest (acc ++ [s])
          else disambiguate_go tok_input rest acc
      | _, _ => .error ()

/-- `disambiguate_move(ambiguous_san, board)`: the legal moves (in engine
enumeration order) whose tokenized piece and destination square match the
input's; the result list is NOT sorted. -/
def disambiguate_move {B : Type} (ops : BoardOps B) (ambiguous_san : String) (b : B) :
    Except Unit (List String) :=
  disambiguate_go ambiguous_san (legal_sans ops b) []

/-! ## Game session state (`GameSession.__init__`, `reset_board`, `apply_moves`,
`push_move`, `check_warning`, `to_dict` / `from_dict`) -/

/-- The game options the session reads: `game_options.get('variant', 'standard')`
and `int(game_options.get('chess960_pos', -1))` (the `int(...)` conversion and
its `ValueError` fallback to `-1` happen before any board is built, so the field
is modelled as the resulting integer).  Other option keys are never read by the
session core. -/
structure GameOptions where
  variant : String := "standard"
  chess960_pos : Int := -1
  deriving DecidableEq, Repr

/-- `DEFAULT_GAME_OPTIONS = {'variant': 'standard', 'chess960_pos': -1}` from
`config.py`, the options every client-created session uses. -/
def default_game_options : GameOptions := {}

/-- The session state: `board`, `moves` (SAN move history), the `variant` field
(rewritten by `reset_board` when a variant alias is resolved), the options and
the session id.  `session_id` is stored as given (`str(session_id)`; the
`or generate_session_id()` branch draws a UUID, unreachable for the non-empty
ids the client passes, and is not modelled). -/
structure GameSession (B : Type) where
  board : B
  moves : List String
  variant : String
  game_options : GameOptions
  session_id : String

/-- `GameSession.reset_board(fen)` together with its `self.variant` update: a
given FEN is tried first (an invalid one falls through, logged); otherwise the
chess960 start, a non-standard variant start (unknown variants fall back to
standard and rename the variant), or the standard start.  Returns the new board
and the possibly updated variant name. -/
def reset_board {B : Type} (ops : BoardOps B) (chess960_pos : Int) (variant : String)
    (fen : Option String) : B × String :=
  let default_start : B × String :=
    if chess960_pos ≥ 0 then (ops.from_chess960 chess960_pos.toNat, variant)
    else if variant ≠ "standard" then
      match ops.find_variant variant with
      | some bv => bv
      | none => (ops.standard, "standard")
    else (ops.standard, variant)
  match fen with
  | some f =>
    match ops.board_from_fen f with
    | some b => (b, variant)
    | none => default_start
  | none => default_start

/-- The game-over tokens recognised by `apply_moves`, in source order. -/
def result_tokens : List String := ["0-1", "1-0", "1/2-1/2"]

/-- `GameSession.apply_moves(moves)`, with the mutated `self.board` / `self.moves`
threaded explicitly: a result token breaks out of the loop (returning `True`);
a move that fails to parse returns `False` with the partial state; otherwise the
SAN rendering (computed before the push) is appended and the move pushed. -/
def apply_moves {B : Type} (ops : BoardOps B) (b : B) (ms : List String) :
    List String → Bool × B × List String
  | [] => (true, b, ms)
  | mv :: rest =>
    if mv ∈ result_tokens then (true, b, ms)
    else
      match parse_move ops b mv with
      | .error _ => (false, b, ms)
      | .ok m => apply_moves ops (ops.push b m) (ms ++ [ops.san b m]) rest

/-- `GameSession.__init__(fen, moves, game_options, session_id)`: reset to the
options-implied start, then apply the moves; if that fails, reset again (now
trying the `fen` parameter) and discard the move list. -/
def game_session_init {B : Type} (ops : BoardOps B) (fen : Option String)
    (moves : List String) (game_options : GameOptions) (session_id : String) :
    GameSession B :=
  let st := reset_board ops game_options.chess960_pos game_options.variant none
  let r := apply_moves ops st.1 [] moves
  if r.1 then
    { board := r.2.1, moves := r.2.2, variant := st.2,
      game_options := game_options, session_id := session_id }
  else
    let st2 := reset_board ops game_options.chess960_pos st.2 fen
    { board := st2.1, moves := [], variant := st2.2,
      game_options := game_options, session_id := session_id }

/-- The persisted form produced by `GameSession.to_dict`. -/
structure PersistedForm where
  fen : String
  moves : List String
  game_options : GameOptions
  session_id : String

/-- `GameSession.to_dict()`: current board FEN, SAN move history, options, id. -/
def to_dict {B : Type} (ops : BoardOps B) (s : GameSession B) : PersistedForm :=
  { fen := ops.fen s.board, moves := s.moves,
    game_options := s.game_options, session_id := s.session_id }

/-- `GameSession.from_dict(d)`, i.e. `GameSession(**d)`. -/
def from_dict {B : Type} (ops : BoardOps B) (d : PersistedForm) : GameSession B :=
  game_session_init ops (some d.fen) d.moves d.game_options d.session_id

/-- `GameSession.push_move(move)`: append `board.san(move)` to the history and
push the move.  (The source's `IllegalMoveError` recovery path only fires on a
rules-engine inconsistency — the caller guarantees legality — and the engine
calls are total here.) -/
def push_move {B : Type} (ops : BoardOps B) (s : GameSession B) (m : PyMove) :
    GameSession B :=
  { s with moves := s.moves ++ [ops.san s.board m], board := ops.push s.board m }

/-- Python `move_str.endswith(c)` for a one-character suffix: the last character
is `c` (false on the empty string). -/
def ends_with_char (s : String) (c : Char) : Bool :=
  s.data.getLast? = some c

/-- `GameSession.check_warning(move_str)`, evaluated on the session's current
(post-move) board. -/
def check_warning {B : Type} (ops : BoardOps B) (b : B) (move_str : String) :
    Option String :=
  if ops.is_check b ∧ ¬ops.is_checkmate b then
    if ends_with_char move_str '#' then
      some "User called a checkmate, but this move results in check!"
    else some "Check!"
  else if ends_with_char move_str '+' ∧ ¬ops.is_check b then
    some "User called a check, but this move does not result in check!"
  else if ends_with_char move_str '#' ∧ ¬ops.is_checkmate b then
    some "User called a checkmate, but this move does not result in checkmate!"
  else none

/-- The three corrective annotation-mismatch warnings `check_warning` can emit
(as opposed to the informational `"Check!"` and to no message). -/
def is_corrective : Option String → Prop
  | some r => r = "User called a checkmate, but this move results in check!" ∨
              r = "User called a check, but this move does not result in check!" ∨
              r = "User called a checkmate, but this move does not result in checkmate!"
  | none => False

/-- The sessions reachable during play: a fresh session (the client creates games
with no FEN and no moves: `ClientGameSession(client_options=...)`), extended by
legal pushes — `make_move` pushes exactly the moves `parse_move` resolves, and
those are legal on the current board (the UCI branch checks `board.is_legal`;
`parse_san` only returns legal moves, per the rules-engine contract). -/
inductive Reachable {B : Type} (ops : BoardOps B) (opts : GameOptions) (sid : String) :
    GameSession B → Prop where
  | base : Reachable ops opts sid (game_session_init ops none [] opts sid)
  | step {s : GameSession B} {m : PyMove} : Reachable ops opts sid s →
      ops.is_legal s.board m = true → Reachable ops opts sid (push_move ops s m)

/-! ## Client session (`ClientGameSession.make_move`)

`make_move` returns user-facing message strings; each return site is modelled by
an outcome constructor carrying the data the message interpolates (the rendering
into flavour text is presentation, out of the verified core).  Discord member
objects are reduced to their user id (`mover.user.id`). -/

/-- `interactions.Member`, reduced to the only field `make_move` compares:
`mover.user.id`. -/
structure Member where
  id : Nat
  deriving DecidableEq, Repr

/-- The client-session state `make_move` touches: the inherited `GameSession`
board/history plus the ids of the two players and the player-count option
(`client_options.players`). -/
structure ClientGameSession (B : Type) where
  board : B
  moves : List String
  white_id : Nat
  black_id : Nat
  players : Nat
  deriving Repr

/-- The outcomes of `ClientGameSession.make_move`, one per return site:
the backend error for a missing mover, the two precondition rejections, the
invalid/illegal reply carrying `correct_bad_move` suggestions, the ambiguous
reply carrying `disambiguate_move` suggestions (or the uncaught `KeyError` that
call can raise), the `NotImplementedError` that `send_move` raises in
games against the engine, and a successful move carrying the `check_warning`
result. -/
inductive MakeMoveOutcome where
  | backend_error
  | not_a_player
  | not_your_turn
  | invalid_move (suggestions : List String)
  | ambiguous_move (suggestions : Except Unit (List String))
  | engine_unimplemented
  | moved (warning : Option String)
  deriving Repr

/-- `ClientGameSession.make_move(move_str, mover)`: identity and turn checks
first (rejections leave the session untouched), then `parse_move`;
`InvalidMoveError` and `IllegalMoveError` produce correction suggestions,
`AmbiguousMoveError` produces disambiguation candidates, and a resolved move is
pushed (`push_move`), sent to the engine when `players == 1` (which raises
`NotImplementedError`), and otherwise answered with the `check_warning` for the
resulting position. -/
def make_move {B : Type} (ops : BoardOps B) (s : ClientGameSession B)
    (move_str : String) (mover : Option Member) :
    MakeMoveOutcome × ClientGameSession B :=
  match mover with
  | none => (.backend_error, s)
  | some u =>
    if u.id ≠ s.black_id ∧ u.id ≠ s.white_id then (.not_a_player, s)
    else if u.id ≠ s.white_id ∧ ops.turn s.board = true then (.not_your_turn, s)
    else if u.id ≠ s.black_id ∧ ops.turn s.board = false then (.not_your_turn, s)
    else
      match parse_move ops s.board move_str with
      | .error .invalid => (.invalid_move (correct_bad_move ops move_str s.board), s)
      | .error .illegal => (.invalid_move (correct_bad_move ops move_str s.board), s)
      | .error .ambiguous => (.ambiguous_move (disambiguate_move ops move_str s.board), s)
      | .ok m =>
        let s' := { s with moves := s.moves ++ [ops.san s.board m],
                           board := ops.push s.board m }
        if s.players = 1 then (.engine_unimplemented, s')
        else (.moved (check_warning ops s'.board move_str), s')

/-! ## Concrete rules-engine instances

Small concrete `BoardOps` instances used to evaluate the session code on
specific positions.  For the two chess positions, `legal_moves` / `san` list the
SAN renderings of the legal moves in python-chess's generation order
(`generate_pseudo_legal_moves` scans piece squares and target squares from h8
down to a1, non-pawns first, then castling, then pawn captures, single and
double advances). -/

/-- A degenerate engine over a one-point board type: no legal moves, every SAN
parse fails as invalid. -/
def trivial_ops : BoardOps Unit where
  is_legal := fun _ _ => false
  parse_san := fun _ _ => .error .invalid
  san := fun _ _ => ""
  push := fun _ _ => ()
  turn := fun _ => true
  is_check := fun _ => false
  is_checkmate := fun _ => false
  legal_moves := fun _ => []
  fen := fun _ => ""
  board_from_fen := fun _ => none
  from_chess960 := fun _ => ()
  find_variant := fun _ => none
  standard := ()

/-- The SAN renderings of the 20 legal moves of the standard opening position,
in python-chess generation order: knights (g1 before b1, higher target squares
first), then the pawn single advances h3..a3, then the double advances h4..a4. -/
def opening_sans : List String :=
  ["Nh3", "Nf3", "Nc3", "Na3",
   "h3", "g3", "f3", "e3", "d3", "c3", "b3", "a3",
   "h4", "g4", "f4", "e4", "d4", "c4", "b4", "a4"]

/-- An engine whose single board is the standard opening position (dummy move
values index into `opening_sans`). -/
def opening_ops : BoardOps Unit :=
  { trivial_ops with
    legal_moves := fun _ => (List.range 20).map fun i => { from_square := i, to_square := 0 }
    san := fun _ m => opening_sans.getD m.from_square "" }

/-- The position `k7/8/8/8/8/2N3N1/8/K7 w - - 0 1` (white knights c3 and g3,
kings a8/a1): both knights reach e4 and e2, so `Ne4` and `Ne2` are ambiguous.
SAN renderings of the 17 legal moves in python-chess generation order (g3 knight
first, then c3 knight, then the king), `Nge4` before `Nce4`. -/
def two_knights_sans : List String :=
  ["Nh5", "Nf5", "Nge4", "Nge2", "Nh1", "Nf1",
   "Nd5", "Nb5", "Nce4", "Na4", "Nce2", "Na2", "Nd1", "Nb1",
   "Kb2", "Ka2", "Kb1"]

/-- An engine whose single board is the two-knights position above. -/
def two_knights_ops : BoardOps Unit :=
  { trivial_ops with
    legal_moves := fun _ => (List.range 17).map fun i => { from_square := i, to_square := 0 }
    san := fun _ m => two_knights_sans.getD m.from_square "" }

/-- An engine whose single board is checkmated (used to evaluate
`check_warning` after a mating move). -/
def mate_ops : BoardOps Unit :=
  { trivial_ops with is_check := fun _ => true, is_checkmate := fun _ => true }

/-- The one legal move of the `replay_ops` engine. -/
def replay_move : PyMove := { from_square := 0, to_square := 1 }

/-- A small engine with genuine state (the board records the pushed moves) and a
well-behaved SAN round trip: the single legal move renders as `"mv"`, which is
not UCI-shaped, not a result token, and parses back to the move. -/
def replay_ops : BoardOps (List String) where
  is_legal := fun _ m => decide (m = replay_move)
  parse_san := fun _ s => if s = "mv" then .ok replay_move else .error .invalid
  san := fun _ _ => "mv"
  push := fun b _ => b ++ ["mv"]
  turn := fun _ => true
  is_check := fun _ => false
  is_checkmate := fun _ => false
  legal_moves := fun _ => [replay_move]
  fen := fun b => String.intercalate "," b
  board_from_fen := fun _ => none
  from_chess960 := fun _ => []
  find_variant := fun _ => none
  standard := []

/-- An engine over `Nat` boards where every SAN parse fails and exactly the FEN
`"validfen"` is accepted, to exercise the deserialization fallback paths. -/
def fallback_ops : BoardOps Nat where
  is_legal := fun _ _ => false
  parse_san := fun _ _ => .error .invalid
  san := fun _ _ => ""
  push := fun b _ => b + 1
  turn := fun _ => true
  is_check := fun _ => false
  is_checkmate := fun _ => false
  legal_moves := fun _ => []
  fen := fun b => toString b
  board_from_fen := fun f => if f = "validfen" then some 7 else none
  from_chess960 := fun n => 100 + n
  find_variant := fun v => if v = "atomic" then some (50, "atomic") else none
  standard := 0

/-- An engine (over a one-point board) where the turn is white's; used to
exercise the turn-enforcement rejections of `make_move`. -/
def white_turn_ops : BoardOps Unit :=
  { trivial_ops with turn := fun _ => true }

/-- A concrete two-player client session under `white_turn_ops`: white is user 1,
black is user 2, and it is white's turn. -/
def demo_client_session : ClientGameSession Unit :=
  { board := (), moves := ["e4"], white_id := 1, black_id := 2, players := 2 }

/-- Case-insensitive lexicographic string order, as the specification's
"sorted lexically (case-insensitive)" reads: compare lowercased code points.
(Spec-side definition, for comparison against the source's `sorted`.) -/
def spec_ci_le (a b : String) : Bool :=
  py_le_chars (a.data.map Char.toLower) (b.data.map Char.toLower)

/-- The matching criterion of `disambiguate_move`, packaged as a predicate on a
candidate SAN string given the user input: both tokenize and agree on piece and
destination. -/
def san_matches_input (input s : String) : Bool :=
  match tokenize_move s, tokenize_move input with
  | some t1, some t2 => token_fields_match t1 t2
  | _, _ => false

/-! ## Theorems

First, helper lemmas about the Python string order and the suggestion loop. -/

theorem py_le_chars_total : ∀ as bs : List Char, py_le_chars as bs = true ∨ py_le_chars bs as = true := by
  intro as
  induction as with
  | nil => intro bs; left; cases bs <;> rfl
  | cons a as ih =>
    intro bs
    cases bs with
    | nil => right; rfl
    | cons b bs =>
      simp only [py_le_chars]
      rcases Nat.lt_trichotomy a.toNat b.toNat with h | h | h
      · left; simp [h]
      · have h1 : ¬ a.toNat < b.toNat := by omega
        have h2 : ¬ b.toNat < a.toNat := by omega
        simp only [if_neg h1, if_neg h2]
        exact ih bs
      · right; simp [h, Nat.lt_asymm h]

theorem py_le_chars_trans : ∀ as bs cs : List Char, py_le_chars as bs = true →
    py_le_chars bs cs = true → py_le_chars as cs = true := by
  intro as
  induction as with
  | nil => intro bs cs _ _; cases cs <;> rfl
  | cons a as ih =>
    intro bs cs h1 h2
    cases bs with
    | nil => simp [py_le_chars] at h1
    | cons b bs =>
      cases cs with
      | nil => simp [py_le_chars] at h2
      | cons c cs =>
        simp only [py_le_chars] at h1 h2 ⊢
        split_ifs at h1 h2 ⊢ with hab hba hbc hcb hac hca <;>
          first
          | rfl
          | omega
          | exact ih bs cs h1 h2

theorem py_le_total (a b : String) : py_le a b = true ∨ py_le b a = true :=
  py_le_chars_total a.data b.data

theorem py_le_trans {a b c : String} (h1 : py_le a b = true) (h2 : py_le b c = true) :
    py_le a c = true :=
  py_le_chars_trans a.data b.data c.data h1 h2

theorem py_insert_eq_orderedInsert (x : String) (l : List String) :
    py_insert x l = List.orderedInsert (fun a b => py_le a b = true) x l := by
  induction l with
  | nil => rfl
  | cons y ys ih => by_cases h : py_le x y = true <;> simp [py_insert, List.orderedInsert, h, ih]

theorem py_sorted_eq_insertionSort (l : List String) :
    py_sorted l = List.insertionSort (fun a b => py_le a b = true) l := by
  induction l with
  | nil => rfl
  | cons y ys ih =>
    simp only [py_sorted, List.foldr_cons, List.insertionSort]
    rw [show ys.foldr py_insert [] = py_sorted ys from rfl, ih, py_insert_eq_orderedInsert]

theorem py_sorted_sorted (l : List String) :
    List.Sorted (fun a b => py_le a b = true) (py_sorted l) := by
  haveI : IsTotal String (fun a b => py_le a b = true) := ⟨py_le_total⟩
  haveI : IsTrans String (fun a b => py_le a b = true) := ⟨fun _ _ _ => py_le_trans⟩
  rw [py_sorted_eq_insertionSort]
  exact List.sorted_insertionSort _ l

theorem mem_py_sorted {x : String} {l : List String} : x ∈ py_sorted l ↔ x ∈ l := by
  rw [py_sorted_eq_insertionSort]
  exact (List.perm_insertionSort _ l).mem_iff

theorem foldl_append_filter (P : String → Prop) [DecidablePred P] :
    ∀ (l acc : List String),
      l.foldl (fun acc s => if P s then acc ++ [s] else acc) acc
        = acc ++ l.filter (fun s => decide (P s)) := by
  intro l
  induction l with
  | nil => simp
  | cons s rest ih =>
    intro acc
    by_cases h : P s <;> simp [List.filter_cons, h, ih]

/-- C4 (counterexample): the claim's adaptive threshold and ordering do not match
the code.  On the opening position, for the one-character invalid input `"e"` the
legal move `"e4"` is within Levenshtein distance 1 — the claim's threshold for
strings of length ≤ 2 — yet `correct_bad_move` returns no suggestions (its
threshold is `min(2, len - 1) = 0`).  And for the input `"f3"` the returned list
places `"Nf3"` first (Python's case-sensitive `sorted`), although
case-insensitively `"Nf3"` comes after `"a3"`, so the list is not sorted
case-insensitively. -/
theorem correct_bad_move_claim_counterexample :
    correct_bad_move opening_ops "e" () = [] ∧
    "e4" ∈ legal_sans opening_ops () ∧ levenshtein "e" "e4" ≤ 1 ∧
    correct_bad_move opening_ops "f3" () =
      ["Nf3", "a3", "b3", "c3", "d3", "e3", "f3", "f4", "g3", "h3"] ∧
    spec_ci_le "Nf3" "a3" = false := by
  refine ⟨by decide, by decide, by decide, by decide, by decide⟩

/-- C4 (amended): for every move string `m` and board, `correct_bad_move` returns
exactly the SAN renderings of the legal moves whose `levenshtein` distance from
`m` is at most `min(2, len(m) - 1)` (so distance ≤ 1 only for length-2 inputs;
a 1-character input admits only exact matches and the empty input nothing), in
ascending case-SENSITIVE (code-point) lexicographic order. -/
theorem correct_bad_move_characterization {B : Type} (ops : BoardOps B)
    (move_str : String) (b : B) :
    (∀ x, x ∈ correct_bad_move ops move_str b ↔
      (x ∈ legal_sans ops b ∧
        (levenshtein move_str x : Int) ≤ min 2 ((move_str.length : Int) - 1))) ∧
    List.Sorted (fun a b => py_le a b = true) (correct_bad_move ops move_str b) := by
  unfold correct_bad_move
  rw [foldl_append_filter
    (fun s => (levenshtein move_str s : Int) ≤ min 2 ((move_str.length : Int) - 1))]
  constructor
  · intro x
    rw [mem_py_sorted]
    simp [List.mem_filter]
  · exact py_sorted_sorted _

theorem disambiguate_go_eq (input : String) :
    ∀ (l acc : List String), (tokenize_move input).isSome = true →
      (∀ s ∈ l, (tokenize_move s).isSome = true) →
      disambiguate_go input l acc = .ok (acc ++ l.filter (san_matches_input input)) := by
  intro l
  induction l with
  | nil => intro acc _ _; simp [disambiguate_go]
  | cons s rest ih =>
    intro acc hin hall
    obtain ⟨t2, ht2⟩ := Option.isSome_iff_exists.mp hin
    obtain ⟨t1, ht1⟩ := Option.isSome_iff_exists.mp (hall s (by simp))
    have hrest : ∀ x ∈ rest, (tokenize_move x).isSome = true :=
      fun x hx => hall x (List.mem_cons_of_mem _ hx)
    have hmatch : san_matches_input input s = token_fields_match t1 t2 := by
      simp [san_matches_input, ht1, ht2]
    simp only [disambiguate_go, ht1, ht2, List.filter_cons, hmatch]
    by_cases hm : token_fields_match t1 t2 = true
    · rw [if_pos hm, if_pos hm, ih (acc ++ [s]) hin hrest]
      simp
    · rw [if_neg hm, if_neg hm, ih acc hin hrest]

/-- C5 (counterexample): `disambiguate_move` does not sort its candidates; they
come back in the rules engine's move-generation order.  In the position
`k7/8/8/8/8/2N3N1/8/K7 w - - 0 1` (knights on c3 and g3, both reaching e4),
python-chess enumerates the g3 knight first, so `disambiguate_move("Ne4")`
returns `["Nge4", "Nce4"]`, which is not in ascending lexical order
(`"Nge4" > "Nce4"`). -/
theorem disambiguate_move_claim_counterexample :
    disambiguate_move two_knights_ops "Ne4" () = .ok ["Nge4", "Nce4"] ∧
    py_le "Nge4" "Nce4" = false := by
  exact ⟨rfl, by decide⟩

/-- C5 (amended): for every input that tokenizes and every board all of whose
legal-move SAN renderings tokenize, `disambiguate_move` returns exactly the
legal moves whose tokenized piece and destination square match the input's —
as a list in the rules engine's enumeration order (an order-preserving filter,
not sorted). -/
theorem disambiguate_move_characterization {B : Type} (ops : BoardOps B)
    (input : String) (b : B)
    (hin : (tokenize_move input).isSome = true)
    (hall : ∀ s ∈ legal_sans ops b, (tokenize_move s).isSome = true) :
    disambiguate_move ops input b =
      .ok ((legal_sans ops b).filter (san_matches_input input)) := by
  unfold disambiguate_move
  rw [disambiguate_go_eq input (legal_sans ops b) [] hin hall]
  simp

/-- Witness for C5's amended theorem: on the two-knights position with input
`"Ne4"`, both hypotheses hold and the filter evaluates to the two candidates in
generation order. -/
theorem disambiguate_move_characterization_witness :
    disambiguate_move two_knights_ops "Ne4" () =
      .ok ((legal_sans two_knights_ops ()).filter (san_matches_input "Ne4")) :=
  disambiguate_move_characterization two_knights_ops "Ne4" () (by decide) (by decide)

/-- C2: `parse_move` on a string the UCI parser accepts syntactically but that is
not legal on the current board reports `IllegalMoveError` — for every possible
`parse_san`, i.e. SAN interpretation is never attempted on a syntactically valid
UCI string; and when the string is not syntactically valid UCI, the result is
exactly that of the SAN parse (with its errors re-raised unchanged). -/
theorem parse_move_uci_precedence {B : Type} (ops : BoardOps B) (b : B) (move_str : String) :
    (∀ m, from_uci (preprocess move_str) = some m → ops.is_legal b m = false →
        parse_move ops b move_str = .error .illegal) ∧
    (from_uci (preprocess move_str) = none →
        parse_move ops b move_str = ops.parse_san b (preprocess move_str)) := by
  constructor
  · intro m hm hl
    simp [parse_move, hm, hl]
  · intro hm
    simp [parse_move, hm]

/-- Witness for C2: under an engine whose boards admit no legal move and whose
SAN parser always fails as invalid, `"e2e4"` (valid UCI) is rejected as illegal,
and `"Nf3"` (not valid UCI) gets the SAN parser's verdict. -/
theorem parse_move_uci_precedence_witness :
    parse_move trivial_ops () "e2e4" = .error .illegal ∧
    parse_move trivial_ops () "Nf3" = trivial_ops.parse_san () (preprocess "Nf3") := by
  constructor
  · exact (parse_move_uci_precedence trivial_ops () "e2e4").1
      { from_square := 12, to_square := 28 } (by decide) (by decide)
  · exact (parse_move_uci_precedence trivial_ops () "Nf3").2 (by decide)

/-- C3: `make_move` by a mover who is not the player whose color matches the
current turn — including a missing mover and users who are not participants at
all — returns one of the rejection replies (backend error, not-a-player,
not-your-turn) and leaves the session (board and move history) unchanged; no
move is parsed or pushed. -/
theorem make_move_turn_enforcement {B : Type} (ops : BoardOps B)
    (s : ClientGameSession B) (move_str : String) (mover : Option Member)
    (h : mover = none ∨ ∃ u, mover = some u ∧
        ((ops.turn s.board = true ∧ u.id ≠ s.white_id) ∨
         (ops.turn s.board = false ∧ u.id ≠ s.black_id))) :
    ∃ r, make_move ops s move_str mover = (r, s) ∧
      (r = .backend_error ∨ r = .not_a_player ∨ r = .not_your_turn) := by
  rcases h with h | ⟨u, rfl, h⟩
  · subst h
    exact ⟨.backend_error, rfl, Or.inl rfl⟩
  · simp only [make_move]
    by_cases hp : u.id ≠ s.black_id ∧ u.id ≠ s.white_id
    · rw [if_pos hp]
      exact ⟨.not_a_player, rfl, Or.inr (Or.inl rfl)⟩
    · rw [if_neg hp]
      rcases h with ⟨ht, hw⟩ | ⟨ht, hb⟩
      · rw [if_pos ⟨hw, ht⟩]
        exact ⟨.not_your_turn, rfl, Or.inr (Or.inr rfl)⟩
      · have h2 : ¬(u.id ≠ s.white_id ∧ ops.turn s.board = true) := by
          rintro ⟨_, h2⟩
          rw [ht] at h2
          cases h2
        rw [if_neg h2, if_pos ⟨hb, ht⟩]
        exact ⟨.not_your_turn, rfl, Or.inr (Or.inr rfl)⟩

/-- Witness for C3: it is white's turn and black (user 2) tries to move: the
session comes back unchanged with a rejection. -/
theorem make_move_turn_enforcement_witness :
    ∃ r, make_move white_turn_ops demo_client_session "e4" (some { id := 2 }) =
        (r, demo_client_session) ∧
      (r = .backend_error ∨ r = .not_a_player ∨ r = .not_your_turn) :=
  make_move_turn_enforcement white_turn_ops demo_client_session "e4" (some { id := 2 })
    (Or.inr ⟨{ id := 2 }, rfl, Or.inl ⟨rfl, by decide⟩⟩)

/-- C6 (counterexample): after a checkmating move whose string carries no `'#'`
claim, the claim expects the informational `"Check!"` (check occurred, no `'#'`),
but `check_warning` returns no message at all: on a board in checkmate
(`mate_ops`), `check_warning` for the unannotated `"Qh7"` is `none`. -/
theorem check_warning_claim_counterexample :
    mate_ops.is_check () = true ∧ ends_with_char "Qh7" '#' = false ∧
    check_warning mate_ops () "Qh7" = none := by
  refine ⟨rfl, by decide, by decide⟩

/-- C6 (amended): `check_warning` on the resulting position returns a corrective
warning exactly when the annotation mismatches (`'+'` but no check, or `'#'` but
no checkmate — which covers `'#'` on a mere check), returns `"Check!"` exactly
when the position is check but not checkmate and the user did not claim `'#'`
(so an unclaimed checkmate gets NO informational message), and returns no
message in every remaining case. -/
theorem check_warning_characterization {B : Type} (ops : BoardOps B) (b : B) (m : String) :
    (is_corrective (check_warning ops b m) ↔
      ((ends_with_char m '+' = true ∧ ops.is_check b = false) ∨
       (ends_with_char m '#' = true ∧ ops.is_checkmate b = false))) ∧
    (check_warning ops b m = some "Check!" ↔
      (ops.is_check b = true ∧ ops.is_checkmate b = false ∧ ends_with_char m '#' = false)) ∧
    (check_warning ops b m = none ↔
      (¬((ends_with_char m '+' = true ∧ ops.is_check b = false) ∨
         (ends_with_char m '#' = true ∧ ops.is_checkmate b = false)) ∧
       ¬(ops.is_check b = true ∧ ops.is_checkmate b = false ∧ ends_with_char m '#' = false))) := by
  cases hc : ops.is_check b <;> cases hk : ops.is_checkmate b <;>
    cases hp : ends_with_char m '+' <;> cases hh : ends_with_char m '#' <;>
      simp [check_warning, is_corrective, hc, hk, hp, hh]

theorem postprocess_result (t : MoveToken) : (postprocess t).result = t.result := by
  rcases t with ⟨p, ff, fr, cap, tf, tr, pr, cas, chk, res⟩
  cases pr <;> simp only [postprocess] <;> split <;> rfl

/-- C8 (counterexample): the tokenization of the result token `"1-0"` does NOT
leave every other field unset — the pawn-defaulting step fires (no piece, no
from-square components) and populates `piece` with `"P"`. -/
theorem tokenize_result_claim_counterexample :
    tokenize_move "1-0" = some { piece := some "P", result := some "1-0" } ∧
    (tokenize_move "1-0").map MoveToken.piece = some (some "P") :=
  ⟨rfl, rfl⟩

/-- C8 (amended): a token carrying a `result` has every field unset EXCEPT
`piece`, which the pawn-defaulting post-processing sets to `"P"`; and a string
that matches with no piece letter, both from-square components, and no capture
marker (the UCI shape) keeps `piece` unset rather than defaulting it to pawn. -/
theorem tokenize_result_and_uci_shape :
    (∀ (s : String) (t : MoveToken), tokenize_move s = some t → t.result.isSome = true →
      t = { piece := some "P", result := t.result }) ∧
    (∀ (s : String) (ff fr tf tr : String) (promo chk : Option String),
      regex_match s.data =
        some (.pieceMove none (some ff) (some fr) none tf tr promo chk) →
      ∃ t, tokenize_move s = some t ∧ t.piece = none) := by
  constructor
  · intro s t ht hres
    unfold tokenize_move at ht
    cases hr : regex_match s.data with
    | none => rw [hr] at ht; cases ht
    | some raw =>
      rw [hr] at ht
      injection ht with ht
      subst ht
      cases raw with
      | pieceMove p ff fr cap tf tr pr chk =>
        rw [postprocess_result] at hres
        simp [to_groupdict] at hres
      | castleMove c chk =>
        rw [postprocess_result] at hres
        simp [to_groupdict] at hres
      | resultMatch r => rfl
  · intro s ff fr tf tr promo chk hr
    refine ⟨postprocess (to_groupdict (.pieceMove none (some ff) (some fr) none tf tr promo chk)),
      ?_, ?_⟩
    · unfold tokenize_move
      rw [hr]
    · cases promo <;> simp [to_groupdict, postprocess]

/-- Witness for C8's amended theorem: `"1-0"` (result token with `piece = "P"`)
and `"e2e4"` (UCI shape, `piece` unset). -/
theorem tokenize_result_and_uci_shape_witness :
    (∃ t, tokenize_move "1-0" = some t ∧ t = { piece := some "P", result := t.result }) ∧
    (∃ t, tokenize_move "e2e4" = some t ∧ t.piece = none) := by
  constructor
  · exact ⟨{ piece := some "P", result := some "1-0" }, rfl,
      tokenize_result_and_uci_shape.1 "1-0" { piece := some "P", result := some "1-0" } rfl rfl⟩
  · exact tokenize_result_and_uci_shape.2 "e2e4" "e" "2" "e" "4" none none rfl

/-- C9: `tokenize_move` is total — in this embedding it is a pure function that
yields a defined value (`some` token or the empty token `none`) for every input
string, mirroring that the Python function never raises — and on every string
the regex does not match (arbitrary non-chess text, including the empty string)
it returns the empty token. -/
theorem tokenize_total_and_empty :
    tokenize_move "" = none ∧
    tokenize_move "not a chess move" = none ∧
    (∀ s : String, regex_match s.data = none → tokenize_move s = none) ∧
    (∀ s : String, tokenize_move s = none ∨ ∃ t, tokenize_move s = some t) := by
  refine ⟨rfl, by decide, ?_, ?_⟩
  · intro s h
    unfold tokenize_move
    rw [h]
  · intro s
    unfold tokenize_move
    cases regex_match s.data with
    | none => exact Or.inl rfl
    | some raw => exact Or.inr ⟨_, rfl⟩

/-- Witness for C9: the adversarial string `"qwerty"` matches no move shape and
tokenizes to the empty token. -/
theorem tokenize_total_and_empty_witness :
    regex_match "qwerty".data = none ∧ tokenize_move "qwerty" = none :=
  ⟨by decide, tokenize_total_and_empty.2.2.1 "qwerty" (by decide)⟩

/-- C10: `apply_moves` reaching a game-result token (`'0-1'`, `'1-0'`,
`'1/2-1/2'`) stops there, reports success (`True`) with the state built so far,
and silently discards every entry after the token: the result on
`pre ++ token :: post` is exactly the result on `pre` (for any tail `post`),
provided the entries of `pre` are not themselves result tokens. -/
theorem apply_moves_stops_at_result_token {B : Type} (ops : BoardOps B) :
    (∀ (b : B) (ms : List String) (tok : String) (post : List String),
      tok ∈ result_tokens → apply_moves ops b ms (tok :: post) = (true, b, ms)) ∧
    (∀ (pre : List String) (b : B) (ms : List String) (tok : String) (post : List String),
      tok ∈ result_tokens → (∀ x ∈ pre, x ∉ result_tokens) →
      apply_moves ops b ms (pre ++ tok :: post) = apply_moves ops b ms pre) := by
  have h1 : ∀ (b : B) (ms : List String) (tok : String) (post : List String),
      tok ∈ result_tokens → apply_moves ops b ms (tok :: post) = (true, b, ms) := by
    intro b ms tok post htok
    simp [apply_moves, htok]
  refine ⟨h1, ?_⟩
  intro pre
  induction pre with
  | nil =>
    intro b ms tok post htok _
    simp only [List.nil_append]
    rw [h1 b ms tok post htok]
    rfl
  | cons mv pre ih =>
    intro b ms tok post htok hpre
    have hmv : mv ∉ result_tokens := hpre mv (by simp)
    have hrest : ∀ x ∈ pre, x ∉ result_tokens :=
      fun x hx => hpre x (List.mem_cons_of_mem _ hx)
    simp only [List.cons_append, apply_moves, if_neg hmv]
    cases parse_move ops b mv with
    | error e => rfl
    | ok m => exact ih (ops.push b m) (ms ++ [ops.san b m]) tok post htok hrest

/-- Witness for C10: replaying `["mv", "1-0", "junk"]` under `replay_ops` equals
replaying just `["mv"]`, and the tail starting at the token immediately reports
success with the state unchanged. -/
theorem apply_moves_stops_at_result_token_witness :
    apply_moves replay_ops [] [] (["mv"] ++ "1-0" :: ["junk"]) =
      apply_moves replay_ops [] [] ["mv"] ∧
    apply_moves replay_ops ["mv"] ["mv"] ("1-0" :: ["junk"]) = (true, ["mv"], ["mv"]) :=
  ⟨(apply_moves_stops_at_result_token replay_ops).2 ["mv"] [] [] "1-0" ["junk"]
      (by decide) (by decide),
   (apply_moves_stops_at_result_token replay_ops).1 ["mv"] ["mv"] "1-0" ["junk"] (by decide)⟩

/-- C7: when the stored move list fails to replay, deserialization
(`GameSession.__init__` as invoked by `from_dict`) does not raise: the resulting
session has an empty move history, and its board is the fallback start — the
stored FEN when one is present and valid, and otherwise the gameOptions-implied
starting position; none of the partially applied moves are retained. -/
theorem deserialize_unreplayable_fallback {B : Type} (ops : BoardOps B)
    (fen : Option String) (moves : List String) (opts : GameOptions) (sid : String)
    (hfail : (apply_moves ops
        (reset_board ops opts.chess960_pos opts.variant none).1 [] moves).1 = false) :
    (game_session_init ops fen moves opts sid).moves = [] ∧
    ((∃ f bf, fen = some f ∧ ops.board_from_fen f = some bf ∧
        (game_session_init ops fen moves opts sid).board = bf) ∨
     ((fen = none ∨ ∃ f, fen = some f ∧ ops.board_from_fen f = none) ∧
        (game_session_init ops fen moves opts sid).board =
          (reset_board ops opts.chess960_pos
            (reset_board ops opts.chess960_pos opts.variant none).2 none).1)) := by
  have hsession : game_session_init ops fen moves opts sid =
      { board := (reset_board ops opts.chess960_pos
            (reset_board ops opts.chess960_pos opts.variant none).2 fen).1,
        moves := [],
        variant := (reset_board ops opts.chess960_pos
            (reset_board ops opts.chess960_pos opts.variant none).2 fen).2,
        game_options := opts, session_id := sid } := by
    unfold game_session_init
    simp only [hfail]
    rfl
  rw [hsession]
  refine ⟨rfl, ?_⟩
  cases fen with
  | none => exact Or.inr ⟨Or.inl rfl, rfl⟩
  | some f =>
    cases hbf : ops.board_from_fen f with
    | some bf => exact Or.inl ⟨f, bf, rfl, hbf, by simp [reset_board, hbf]⟩
    | none => exact Or.inr ⟨Or.inr ⟨f, rfl, hbf⟩, by simp [reset_board, hbf]⟩

/-- Witness for C7: under `fallback_ops` the single move `"zz"` fails to replay;
loading with the valid stored FEN `"validfen"` lands on that FEN's board (7)
with an empty history. -/
theorem deserialize_unreplayable_fallback_witness :
    (game_session_init fallback_ops (some "validfen") ["zz"]
        default_game_options "sid").moves = [] ∧
    ((∃ f bf, (some "validfen" : Option String) = some f ∧
        fallback_ops.board_from_fen f = some bf ∧
        (game_session_init fallback_ops (some "validfen") ["zz"]
          default_game_options "sid").board = bf) ∨
     (((some "validfen" : Option String) = none ∨
        ∃ f, (some "validfen" : Option String) = some f ∧
          fallback_ops.board_from_fen f = none) ∧
        (game_session_init fallback_ops (some "validfen") ["zz"]
            default_game_options "sid").board =
          (reset_board fallback_ops default_game_options.chess960_pos
            (reset_board fallback_ops default_game_options.chess960_pos
              default_game_options.variant none).2 none).1)) :=
  deserialize_unreplayable_fallback fallback_ops (some "validfen") ["zz"]
    default_game_options "sid" (by decide)

theorem apply_moves_append_of_success {B : Type} (ops : BoardOps B) :
    ∀ (l1 : List String) (b : B) (ms l2 : List String) (b' : B) (ms' : List String),
      (∀ x ∈ l1, x ∉ result_tokens) →
      apply_moves ops b ms l1 = (true, b', ms') →
      apply_moves ops b ms (l1 ++ l2) = apply_moves ops b' ms' l2 := by
  intro l1
  induction l1 with
  | nil =>
    intro b ms l2 b' ms' _ happ
    cases happ
    rfl
  | cons mv l1 ih =>
    intro b ms l2 b' ms' hfree happ
    have hmv : mv ∉ result_tokens := hfree mv (by simp)
    have hrest : ∀ x ∈ l1, x ∉ result_tokens :=
      fun x hx => hfree x (List.mem_cons_of_mem _ hx)
    simp only [apply_moves, if_neg hmv] at happ
    simp only [List.cons_append, apply_moves, if_neg hmv]
    cases hp : parse_move ops b mv with
    | error e => rw [hp] at happ; cases happ
    | ok m =>
      rw [hp] at happ
      exact ih (ops.push b m) (ms ++ [ops.san b m]) l2 b' ms' hrest happ

theorem reachable_replay {B : Type} (ops : BoardOps B) (opts : GameOptions) (sid : String)
    (hclean : ∀ (b : B) (m : PyMove), preprocess (ops.san b m) = ops.san b m)
    (hnotuci : ∀ (b : B) (m : PyMove), from_uci (ops.san b m) = none)
    (hsan : ∀ (b : B) (m : PyMove), ops.is_legal b m = true →
      ops.parse_san b (ops.san b m) = .ok m)
    (hnotres : ∀ (b : B) (m : PyMove), ops.san b m ∉ result_tokens) :
    ∀ s, Reachable ops opts sid s →
      (∀ x ∈ s.moves, x ∉ result_tokens) ∧
      apply_moves ops (reset_board ops opts.chess960_pos opts.variant none).1 [] s.moves
        = (true, s.board, s.moves) ∧
      s.game_options = opts ∧ s.session_id = sid := by
  intro s hs
  induction hs with
  | base =>
    refine ⟨by simp [game_session_init, apply_moves], ?_, rfl, rfl⟩
    simp [game_session_init, apply_moves]
  | @step s m hs hlegal ih =>
    obtain ⟨hfree, happ, hopts, hsid⟩ := ih
    have hstep : apply_moves ops s.board s.moves [ops.san s.board m]
        = (true, ops.push s.board m, s.moves ++ [ops.san s.board m]) := by
      have hparse : parse_move ops s.board (ops.san s.board m) = .ok m := by
        simp only [parse_move, hclean, hnotuci]
        exact hsan s.board m hlegal
      simp only [apply_moves, if_neg (hnotres s.board m), hparse]
    refine ⟨?_, ?_, hopts, hsid⟩
    · intro x hx
      rcases List.mem_append.mp hx with hx | hx
      · exact hfree x hx
      · rcases List.mem_singleton.mp hx with rfl
        exact hnotres s.board m
    · show apply_moves ops (reset_board ops opts.chess960_pos opts.variant none).1 []
          (s.moves ++ [ops.san s.board m]) = _
      rw [apply_moves_append_of_success ops s.moves _ [] [ops.san s.board m]
        s.board s.moves hfree happ, hstep]
      rfl

/-- C1: for every reachable session `s` (created from the gameOptions-implied
start and grown by legal pushes), deserializing the serialized form —
`from_dict (to_dict s)`, which replays the stored SAN move list from the
gameOptions-implied start — yields a session with the same board FEN and the
same move history as `s`.  The four hypotheses are the rules-engine contract
used: SAN renderings survive the `parse_move` normalisation, are not UCI-shaped,
are not result tokens, and parse back to the move that produced them. -/
theorem session_serialize_roundtrip {B : Type} (ops : BoardOps B) (opts : GameOptions)
    (sid : String)
    (hclean : ∀ (b : B) (m : PyMove), preprocess (ops.san b m) = ops.san b m)
    (hnotuci : ∀ (b : B) (m : PyMove), from_uci (ops.san b m) = none)
    (hsan : ∀ (b : B) (m : PyMove), ops.is_legal b m = true →
      ops.parse_san b (ops.san b m) = .ok m)
    (hnotres : ∀ (b : B) (m : PyMove), ops.san b m ∉ result_tokens) :
    ∀ s, Reachable ops opts sid s →
      ops.fen (from_dict ops (to_dict ops s)).board = ops.fen s.board ∧
      (from_dict ops (to_dict ops s)).moves = s.moves := by
  intro s hs
  obtain ⟨hfree, happ, hopts, hsid⟩ :=
    reachable_replay ops opts sid hclean hnotuci hsan hnotres s hs
  have : from_dict ops (to_dict ops s) =
      { board := s.board, moves := s.moves,
        variant := (reset_board ops opts.chess960_pos opts.variant none).2,
        game_options := opts, session_id := s.session_id } := by
    unfold from_dict to_dict game_session_init
    rw [hopts]
    simp only [happ]
    simp
  rw [this]
  exact ⟨rfl, rfl⟩

/-- Witness for C1: a one-move reachable session under the `replay_ops` engine
(which satisfies the four contract hypotheses) round-trips. -/
theorem session_serialize_roundtrip_witness :
    replay_ops.fen (from_dict replay_ops (to_dict replay_ops
        (push_move replay_ops
          (game_session_init replay_ops none [] default_game_options "sid")
          replay_move))).board
      = replay_ops.fen (push_move replay_ops
          (game_session_init replay_ops none [] default_game_options "sid")
          replay_move).board ∧
    (from_dict replay_ops (to_dict replay_ops
        (push_move replay_ops
          (game_session_init replay_ops none [] default_game_options "sid")
          replay_move))).moves
      = (push_move replay_ops
          (game_session_init replay_ops none [] default_game_options "sid")
          replay_move).moves :=
  session_serialize_roundtrip replay_ops default_game_options "sid"
    (fun _ _ => rfl) (fun _ _ => rfl)
    (fun _ m h => by
      have hm : m = replay_move := of_decide_eq_true h
      subst hm
      rfl)
    (fun _ _ => by
      show ("mv" : String) ∉ result_tokens
      decide)
    _ (Reachable.step Reachable.base (by decide))

/-- Witness for C4's amended theorem, instantiated on the opening position with
input `"f3"` and candidate `"Nf3"`. -/
theorem correct_bad_move_characterization_witness :
    ("Nf3" ∈ correct_bad_move opening_ops "f3" () ↔
      ("Nf3" ∈ legal_sans opening_ops () ∧
        (levenshtein "f3" "Nf3" : Int) ≤ min 2 ((("f3" : String).length : Int) - 1))) ∧
    List.Sorted (fun a b => py_le a b = true) (correct_bad_move opening_ops "f3" ()) :=
  ⟨(correct_bad_move_characterization opening_ops "f3" ()).1 "Nf3",
   (correct_bad_move_characterization opening_ops "f3" ()).2⟩

/-- Witness for C6's amended theorem, instantiated on the checkmated board with
the unannotated move string `"Qh7"`. -/
theorem check_warning_characterization_witness :
    (is_corrective (check_warning mate_ops () "Qh7") ↔
      ((ends_with_char "Qh7" '+' = true ∧ mate_ops.is_check () = false) ∨
       (ends_with_char "Qh7" '#' = true ∧ mate_ops.is_checkmate () = false))) ∧
    (check_warning mate_ops () "Qh7" = some "Check!" ↔
      (mate_ops.is_check () = true ∧ mate_ops.is_checkmate () = false ∧
        ends_with_char "Qh7" '#' = false)) ∧
    (check_warning mate_ops () "Qh7" = none ↔
      (¬((ends_with_char "Qh7" '+' = true ∧ mate_ops.is_check () = false) ∨
         (ends_with_char "Qh7" '#' = true ∧ mate_ops.is_checkmate () = false)) ∧
       ¬(mate_ops.is_check () = true ∧ mate_ops.is_checkmate () = false ∧
          ends_with_char "Qh7" '#' = false))) :=
  check_warning_characterization mate_ops () "Qh7"

end EnPassant
